import Mathlib

/-!
Verification of the turn-decision heuristic engine of the starter tower-defense
agent (source: `python-algo/algo_strategy.py`).

The agent's own logic (`AlgoStrategy`) is embedded faithfully from the source.
The engine collaborator (`gamelib`: resource accounting, spawn/upgrade calls,
path service) is not part of the provided sources; following the specification,
those operations are modelled from the spec's abstract interface contracts
(spec section 6) and are marked `Modelled from the spec:` below.

State is passed explicitly; every engine call made by the allocator is logged
as an order together with the structure-currency balance read at the moment of
the call, so that the spec's affordability and gating properties can be stated
about the exact stream of orders the agent issues.
-/

/- Rational arithmetic is `@[irreducible]` in the library; re-marking it
semireducible lets concrete runs of the embedded program be checked by
`decide`. -/
attribute [local semireducible] Rat.mul Rat.add Rat.sub Rat.inv Rat.ofScientific

/-- Board coordinate `[x, y]` (source uses Python 2-element lists). -/
abbrev Coord := Int × Int

/-- The six unit shorthands resolved in `on_game_start` (source lines 54-60). -/
inductive UnitType
  | FILTER
  | ENCRYPTOR
  | DESTRUCTOR
  | PING
  | EMP
  | SCRAMBLER
deriving DecidableEq, Repr

/-- Priority-sorted filter (wall) destinations: `self.destructor_goals`
(source line 36). -/
def destructor_goals : List Coord := [(3, 12), (24, 12), (13, 3), (14, 3)]

/-- Diagonal defense line plus destructor defense: `self.filter_goals`
(source lines 38-40). -/
def filter_goals : List Coord :=
  [(5, 11), (6, 10), (7, 9), (8, 8), (9, 7), (10, 6), (11, 5),
   (22, 11), (21, 10), (20, 9), (19, 8), (18, 7), (17, 6), (16, 5),
   (4, 12), (23, 12), (3, 13), (24, 13)]

/-- `self.secondary_destructor_goals` (source line 42). -/
def secondary_destructor_goals : List Coord := [(2, 13), (25, 13)]

/-- `self.encryptor_goals` (source line 44). -/
def encryptor_goals : List Coord := [(13, 2)]

/-- `self.third_destructor_goals` (source line 46). -/
def third_destructor_goals : List Coord := [(13, 4), (14, 4), (12, 3), (15, 3)]

/-- `self.our_placements` (source line 68): the fixed candidate launch points. -/
def our_placements : List Coord := [(16, 2), (11, 2), (15, 1), (12, 1)]

/-- Modelled from the spec: the engine's structure-build and upgrade cost
table is an external collaborator (spec section 1 puts unit-cost tables out of
scope), so costs are carried symbolically.  The spec fixes only the combined
filter build+upgrade cost at 2 units (the "2-unit gate", spec section 8). -/
structure Costs where
  filter : ℚ
  encryptor : ℚ
  destructor : ℚ
  filterUp : ℚ
  encryptorUp : ℚ
  destructorUp : ℚ
deriving DecidableEq, Repr

/-- Build cost of a stationary unit type. -/
def Costs.build (c : Costs) : UnitType → ℚ
  | UnitType.FILTER => c.filter
  | UnitType.ENCRYPTOR => c.encryptor
  | UnitType.DESTRUCTOR => c.destructor
  | _ => 0

/-- Upgrade cost of a stationary unit type. -/
def Costs.up (c : Costs) : UnitType → ℚ
  | UnitType.FILTER => c.filterUp
  | UnitType.ENCRYPTOR => c.encryptorUp
  | UnitType.DESTRUCTOR => c.destructorUp
  | _ => 0

/-- The per-turn game-state snapshot as far as the agent's decisions read it:
the two resource pools (`CORES` = structure currency, `BITS` = spawn
currency), the turn number, and the agent's own stationary structures
(coordinate, unit type, upgraded flag). -/
structure GS where
  cores : ℚ
  bits : ℚ
  turn_number : Nat
  board : List (Coord × UnitType × Bool)
deriving DecidableEq, Repr

/-- Modelled from the spec: engine query
`containsStationaryUnit(coordinate) -> bool` (spec section 6). -/
def contains_stationary_unit (gs : GS) (loc : Coord) : Bool :=
  gs.board.any fun e => decide (e.1 = loc)

/-- An order transmitted to the engine: a spawn or an upgrade call. -/
inductive Order
  | spawn (t : UnitType) (loc : Coord)
  | upgrade (loc : Coord)
deriving DecidableEq, Repr

/-- A logged engine call: the order together with the structure-currency
balance `bal` read immediately before the call was issued. -/
structure Entry where
  order : Order
  bal : ℚ
deriving DecidableEq, Repr

/-- Modelled from the spec: engine
`attemptSpawn(unitType, coordinate, quantity=1)` for one stationary unit
(spec section 6): a spawn onto an occupied coordinate is a harmless no-op,
an unaffordable spawn places nothing, otherwise the unit is placed and its
build cost deducted (spec section 3: every spend is affordability-gated by
the engine, the balance never goes negative). -/
def attempt_spawn_one (c : Costs) (t : UnitType) (loc : Coord) (gs : GS) : GS :=
  if contains_stationary_unit gs loc then gs
  else if gs.cores < c.build t then gs
  else { gs with cores := gs.cores - c.build t, board := (loc, t, false) :: gs.board }

/-- Modelled from the spec: engine `attemptUpgrade(coordinate)` (spec
section 6): a no-op if no structure is present or it is already upgraded;
otherwise upgrades when affordable. -/
def attempt_upgrade_one (c : Costs) (loc : Coord) (gs : GS) : GS :=
  match gs.board.find? (fun e => decide (e.1 = loc)) with
  | none => gs
  | some e =>
    if e.2.2 then gs
    else if gs.cores < c.up e.2.1 then gs
    else
      { gs with
        cores := gs.cores - c.up e.2.1,
        board := gs.board.map fun e2 =>
          if e2.1 = loc then (e2.1, e2.2.1, true) else e2 }

/-- `attempt_spawn` over a location list (gamelib iterates the list), logging
one spawn order per location with the balance read before that call. -/
def attempt_spawn_list (c : Costs) (t : UnitType) (locs : List Coord) (gs : GS) :
    GS × List Entry :=
  match locs with
  | [] => (gs, [])
  | loc :: rest =>
    (((attempt_spawn_list c t rest (attempt_spawn_one c t loc gs))).1,
     ⟨Order.spawn t loc, gs.cores⟩ ::
       (attempt_spawn_list c t rest (attempt_spawn_one c t loc gs)).2)

/-- `attempt_upgrade` over a location list, logging one upgrade order per
location with the balance read before that call. -/
def attempt_upgrade_list (c : Costs) (locs : List Coord) (gs : GS) :
    GS × List Entry :=
  match locs with
  | [] => (gs, [])
  | loc :: rest =>
    ((attempt_upgrade_list c rest (attempt_upgrade_one c loc gs)).1,
     ⟨Order.upgrade loc, gs.cores⟩ ::
       (attempt_upgrade_list c rest (attempt_upgrade_one c loc gs)).2)

/-- `destructor_set_built` (source lines 110-112): `reduce(and, map(...))`
over the membership checks.  (Python `reduce` without initializer raises on an
empty list; the only call site passes the fixed two-element
`secondary_destructor_goals`, on which the fold below agrees with `reduce`.) -/
def destructor_set_built (gs : GS) (d_list : List Coord) : Bool :=
  (d_list.map fun loc => contains_stationary_unit gs loc).foldl (fun a b => a && b) true

/-- The engine-side accounting patch (source lines 128-130): after a filter
spawn, if the balance dropped by more than `0.5`, half a core is put back by
mutating the engine's resource record. -/
def filter_pair_refund (old : ℚ) (gs1 : GS) : GS :=
  if old - gs1.cores > 1 / 2 then { gs1 with cores := gs1.cores + 1 / 2 } else gs1

/-- One body of the filter build+upgrade loop (source lines 125-132): read the
balance, spawn the filter, apply the accounting patch, upgrade the same
coordinate.  The caller has already passed the `< 2` gate. -/
def filter_pair_step (c : Costs) (f : Coord) (gs : GS) : GS × List Entry :=
  (attempt_upgrade_one c f
     (filter_pair_refund gs.cores (attempt_spawn_one c UnitType.FILTER f gs)),
   [⟨Order.spawn UnitType.FILTER f, gs.cores⟩,
    ⟨Order.upgrade f,
     (filter_pair_refund gs.cores (attempt_spawn_one c UnitType.FILTER f gs)).cores⟩])

/-- The first filter loop (source lines 121-132): for each goal, stop the whole
allocation pass (`return`, flag `false`) if the balance is below 2, otherwise
run the build+upgrade pair and continue. -/
def filter_pair_loop (c : Costs) (goals : List Coord) (gs : GS) :
    GS × List Entry × Bool :=
  match goals with
  | [] => (gs, [], true)
  | f :: rest =>
    if gs.cores < 2 then (gs, [], false)
    else
      ((filter_pair_loop c rest (filter_pair_step c f gs).1).1,
       (filter_pair_step c f gs).2 ++
         (filter_pair_loop c rest (filter_pair_step c f gs).1).2.1,
       (filter_pair_loop c rest (filter_pair_step c f gs).1).2.2)

/-- Reinforcement coordinate (source lines 152-158): one column toward the
board's center ("Build one greater x if on left"), same row. -/
def reinforce_coord (f : Coord) : Coord :=
  (if f.1 < 13 then f.1 + 1 else f.1 - 1, f.2)

/-- The protected central corridor check (source line 160):
"Keep the center path clear". -/
def in_center_corridor (x : Int) : Bool :=
  decide (12 ≤ x) && decide (x ≤ 15)

/-- The reinforcement filter loop (source lines 151-170): skip corridor
columns (`continue`), stop the whole pass if the balance is below 2,
otherwise run the build+upgrade pair at the shifted coordinate. -/
def reinforce_loop (c : Costs) (goals : List Coord) (gs : GS) :
    GS × List Entry × Bool :=
  match goals with
  | [] => (gs, [], true)
  | f :: rest =>
    if in_center_corridor (reinforce_coord f).1 then reinforce_loop c rest gs
    else if gs.cores < 2 then (gs, [], false)
    else
      ((reinforce_loop c rest (filter_pair_step c (reinforce_coord f) gs).1).1,
       (filter_pair_step c (reinforce_coord f) gs).2 ++
         (reinforce_loop c rest (filter_pair_step c (reinforce_coord f) gs).1).2.1,
       (reinforce_loop c rest (filter_pair_step c (reinforce_coord f) gs).1).2.2)

/-- Stable insertion of a coordinate into a list already sorted by descending
`y`; an element of equal `y` keeps its original relative position, matching
Python's stable `sorted(..., key=lambda f: f[1], reverse=True)`. -/
def insert_y_desc (f : Coord) : List Coord → List Coord
  | [] => [f]
  | g :: rest => if f.2 < g.2 then g :: insert_y_desc f rest else f :: g :: rest

/-- `sorted(self.filter_goals, key=lambda f: f[1], reverse=True)`
(source line 150), as a stable insertion sort. -/
def sort_y_desc : List Coord → List Coord
  | [] => []
  | f :: rest => insert_y_desc f (sort_y_desc rest)

/-- Initial tier reissue (source line 119):
`gs.attempt_spawn(DESTRUCTOR, self.destructor_goals)`. -/
def brd_init (c : Costs) (gs : GS) : GS × List Entry :=
  attempt_spawn_list c UnitType.DESTRUCTOR destructor_goals gs

/-- The mid-game block (source lines 137-145): encryptor spawn, secondary
destructor spawn, upgrade of both destructor sets. -/
def brd_mid (c : Costs) (gs : GS) : GS × List Entry :=
  ((attempt_upgrade_list c secondary_destructor_goals
      (attempt_upgrade_list c destructor_goals
        (attempt_spawn_list c UnitType.DESTRUCTOR secondary_destructor_goals
          (attempt_spawn_list c UnitType.ENCRYPTOR encryptor_goals gs).1).1).1).1,
   (attempt_spawn_list c UnitType.ENCRYPTOR encryptor_goals gs).2 ++
     (attempt_spawn_list c UnitType.DESTRUCTOR secondary_destructor_goals
       (attempt_spawn_list c UnitType.ENCRYPTOR encryptor_goals gs).1).2 ++
     (attempt_upgrade_list c destructor_goals
       (attempt_spawn_list c UnitType.DESTRUCTOR secondary_destructor_goals
         (attempt_spawn_list c UnitType.ENCRYPTOR encryptor_goals gs).1).1).2 ++
     (attempt_upgrade_list c secondary_destructor_goals
       (attempt_upgrade_list c destructor_goals
         (attempt_spawn_list c UnitType.DESTRUCTOR secondary_destructor_goals
           (attempt_spawn_list c UnitType.ENCRYPTOR encryptor_goals gs).1).1).1).2)

/-- The end-game block (source lines 179-180): third destructor spawn and
upgrade. -/
def brd_end (c : Costs) (gs : GS) : GS × List Entry :=
  ((attempt_upgrade_list c third_destructor_goals
      (attempt_spawn_list c UnitType.DESTRUCTOR third_destructor_goals gs).1).1,
   (attempt_spawn_list c UnitType.DESTRUCTOR third_destructor_goals gs).2 ++
     (attempt_upgrade_list c third_destructor_goals
       (attempt_spawn_list c UnitType.DESTRUCTOR third_destructor_goals gs).1).2)

/-- State and log after the initial reissue followed by the first filter loop. -/
def brd_loop1 (c : Costs) (gs : GS) : GS × List Entry × Bool :=
  filter_pair_loop c filter_goals (brd_init c gs).1

/-- State and log of the mid-game block applied after the first loop. -/
def brd_mid_r (c : Costs) (gs : GS) : GS × List Entry :=
  brd_mid c (brd_loop1 c gs).1

/-- State and log of the reinforcement loop over the y-sorted goals. -/
def brd_loop2 (c : Costs) (gs : GS) : GS × List Entry × Bool :=
  reinforce_loop c (sort_y_desc filter_goals) (brd_mid_r c gs).1

/-- `build_reactive_defense` (source lines 117-180).  The two `return`
statements inside the filter loops and the `return` after the
`destructor_set_built` check are modelled by the loops' continuation flags and
the early branches below.  The second component is the complete stream of
orders issued to the engine, in issue order, each with the balance read
immediately before the call. -/
def build_reactive_defense (c : Costs) (gs : GS) : GS × List Entry :=
  if (brd_loop1 c gs).2.2 = false then
    ((brd_loop1 c gs).1, (brd_init c gs).2 ++ (brd_loop1 c gs).2.1)
  else if destructor_set_built (brd_mid_r c gs).1 secondary_destructor_goals = false then
    ((brd_mid_r c gs).1,
     (brd_init c gs).2 ++ (brd_loop1 c gs).2.1 ++ (brd_mid_r c gs).2)
  else if (brd_loop2 c gs).2.2 = false then
    ((brd_loop2 c gs).1,
     (brd_init c gs).2 ++ (brd_loop1 c gs).2.1 ++ (brd_mid_r c gs).2 ++
       (brd_loop2 c gs).2.1)
  else
    ((brd_end c (brd_loop2 c gs).1).1,
     (brd_init c gs).2 ++ (brd_loop1 c gs).2.1 ++ (brd_mid_r c gs).2 ++
       (brd_loop2 c gs).2.1 ++ (brd_end c (brd_loop2 c gs).1).2)

/-- Modelled from the spec: the spawn-currency cost of one `PING` (unit-cost
tables are external, spec section 1; `BITS` is the spawn-currency pool). -/
def ping_cost_bits : ℚ := 1

/-- Python `int()` truncation of a non-negative rational resource reading
(source line 241: `int(game_state.get_resource(BITS, 0))`). -/
def rat_trunc_toNat (q : ℚ) : Nat := q.num.toNat / q.den

/-- Modelled from the spec: engine
`canSpawn(unitType, coordinate, quantity) -> bool` (spec section 6): the
engine accepts a mobile-unit spawn when the quantity is positive and
affordable and the coordinate is not blocked by a stationary unit. -/
def can_spawn (gs : GS) (loc : Coord) (quantity : Nat) : Bool :=
  decide (1 ≤ quantity) && !contains_stationary_unit gs loc &&
    decide ((quantity : ℚ) * ping_cost_bits ≤ gs.bits)

/-- Modelled from the spec: engine `attemptSpawn` for a batch of mobile
units (spec section 6): caps the placed quantity at what the spawn-currency
balance allows; places nothing on a blocked coordinate. -/
def attempt_spawn_mobile (gs : GS) (loc : Coord) (quantity : Nat) : GS × Nat :=
  if contains_stationary_unit gs loc then (gs, 0)
  else
    (({ gs with
        bits := gs.bits -
          (min quantity (rat_trunc_toNat (gs.bits / ping_cost_bits)) : Nat) *
            ping_cost_bits }),
     min quantity (rat_trunc_toNat (gs.bits / ping_cost_bits)))

/-- The launch gate literal of `spam_pings_if_good`
(source line 248: `if max_num_pings >= 10`). -/
def spam_gate : Nat := 10

/-- `good_indices = [i for i in range(len(valid_placements))]`
(source line 247), over `valid_placements = self.our_placements[:]`. -/
def spam_good_indices : List Nat := List.range our_placements.length

/-- `random.choice(good_indices)` followed by
`deploy_location = valid_placements[ind]` (source lines 249-250).  The random
draw is modelled by the explicit parameter `pick`, reduced into range; every
index of the candidate list is reachable by some `pick`. -/
def spam_deploy_location (pick : Nat) : Coord :=
  our_placements.getD (spam_good_indices.getD (pick % spam_good_indices.length) 0) (0, 0)

/-- `spam_pings_if_good` (source lines 240-255).  The `assert
game_state.can_spawn(...)` (source line 251) is modelled by `Except`: a
failing check raises (`Except.error`), a passing check commits the spawn of
`max_num_pings` pings at the chosen candidate.  The result carries the new
state, the committed launch order (location and quantity) if any, and the
function's boolean return value. -/
def spam_pings_if_good (gs : GS) (pick : Nat) :
    Except Unit (GS × Option (Coord × Nat) × Bool) :=
  if rat_trunc_toNat gs.bits ≥ spam_gate then
    if can_spawn gs (spam_deploy_location pick) (rat_trunc_toNat gs.bits) then
      Except.ok
        ((attempt_spawn_mobile gs (spam_deploy_location pick) (rat_trunc_toNat gs.bits)).1,
         some (spam_deploy_location pick, rat_trunc_toNat gs.bits), true)
    else Except.error ()
  else Except.ok (gs, none, false)

/-- `spawn_attacker_threshold` (source lines 257-258); defined but never
called anywhere in the source. -/
def spawn_attacker_threshold (health damage_taken : ℚ) : Bool :=
  decide (health ≥ 1.5 * damage_taken)

/-- `location_to_damages` (source lines 301-316): for each candidate, sum
over its path to the opposing edge the attacker count times the per-hit
damage constant.  The path service `findPathToEdge` and the attacker count
query `getAttackers` are engine collaborators taken as function parameters
(`att p` is `len(game_state.get_attackers(p, 0))`, `damage_i` the destructor
per-hit damage constant). -/
def location_to_damages (pte : Coord → List Coord) (att : Coord → Nat)
    (damage_i : Nat) (location_options : List Coord) : List Nat :=
  match location_options with
  | [] => []
  | loc :: rest =>
    (pte loc).foldl (fun damage p => damage + att p * damage_i) 0 ::
      location_to_damages pte att damage_i rest

/-- Python `min` over a non-empty list of damages (source line 299);
`min([])` raises, so the empty case is never used by the embedding. -/
def list_min : List Nat → Nat
  | [] => 0
  | [d] => d
  | d :: e :: rest => Nat.min d (list_min (e :: rest))

/-- Python `list.index`: the index of the first occurrence of `v`
(source line 299). -/
def list_index (v : Nat) : List Nat → Nat
  | [] => 0
  | d :: rest => if d = v then 0 else list_index v rest + 1

/-- `least_damage_spawn_location` (source lines 282-299): compute the damage
list (the loop is textually identical to `location_to_damages`) and return
`location_options[damages.index(min(damages))]`.  On an empty candidate list
Python's `min` raises, modelled as `none`. -/
def least_damage_spawn_location (pte : Coord → List Coord) (att : Coord → Nat)
    (damage_i : Nat) (location_options : List Coord) : Option Coord :=
  match location_options with
  | [] => none
  | _ :: _ =>
    location_options.get?
      (list_index (list_min (location_to_damages pte att damage_i location_options))
        (location_to_damages pte att damage_i location_options))

/-- `on_action_frame` (source lines 334-353): a breach event is
`(location, breach[4])` where flag `1` is a self-owned breaching unit and `2`
an opponent-owned one; only breaches by units not owned by self are appended
to `self.scored_on_locations`, in delivery order. -/
def on_action_frame (scored_on_locations : List Coord)
    (breaches : List (Coord × Nat)) : List Coord :=
  breaches.foldl
    (fun acc breach =>
      if breach.2 == 1 then acc else acc ++ [breach.1])
    scored_on_locations

/-- Modelled from the spec's words, for comparison with the source (claim
refinement): the spec's step function for `minimum_spawn_threshold`
(turn ≤ 5 → 5, turns 6-9 → 10, turns 10-15 → 15, turns > 15 → 20).  No such
function or mutable threshold exists in the source. -/
def minimum_spawn_threshold_spec (turn : Nat) : Nat :=
  if turn ≤ 5 then 5 else if turn ≤ 9 then 10 else if turn ≤ 15 then 15 else 20

/-- Modelled from the spec's words, for comparison with the source (claim
refinement): "mirroring a base coordinate across the board's vertical
centerline and offsetting it inward by one column" — mirror `x ↦ 27 - x`
about the centerline between columns 13 and 14, then one column toward the
centerline. -/
def mirror_inward_spec_coord (f : Coord) : Coord :=
  (if 27 - f.1 ≥ 14 then 27 - f.1 - 1 else 27 - f.1 + 1, f.2)

/-- The affordability-and-pairing contract for a stream of logged orders:
every filter spawn was issued at a balance of at least the 2-unit gate with
the combined pair cost `comb` affordable at that balance, and is immediately
followed by the upgrade order for the same coordinate. -/
def FilterPairsGated (comb : ℚ) (log : List Entry) : Prop :=
  ∀ i f b, log.get? i = some ⟨Order.spawn UnitType.FILTER f, b⟩ →
    2 ≤ b ∧ comb ≤ b ∧ ∃ b', log.get? (i + 1) = some ⟨Order.upgrade f, b'⟩

/-- Concrete cost table for witnesses: destructor build and upgrade cost 6
(source line 41 notes upgrade cost equals build cost), encryptor 4, filter
build 1 and upgrade 1 (the spec's 2-unit combined gate). -/
def costs_w : Costs :=
  { filter := 1, encryptor := 4, destructor := 6,
    filterUp := 1, encryptorUp := 4, destructorUp := 6 }

/-- Witness state for the pair-affordability theorem: 5 structure-currency
units, empty board. -/
def gs_w1 : GS := { cores := 5, bits := 0, turn_number := 0, board := [] }

/-- Witness state for the tier-gating theorem: enough currency to finish the
filter pairs but to run dry before the secondary destructors are built. -/
def gs_w2 : GS := { cores := 55, bits := 0, turn_number := 0, board := [] }

/-- Witness state with structure currency 1 (below the 2-unit gate) at the
first secondary-tier entry. -/
def gs_low : GS := { cores := 1, bits := 0, turn_number := 0, board := [] }

/-- Snapshot with spawn currency 12 at turn 3 (spec section 8 scenario). -/
def gs12t3 : GS := { cores := 0, bits := 12, turn_number := 3, board := [] }

/-- The state after the turn-3 launch of 12 pings: spawn currency spent to 0. -/
def gs12t3_after : GS := { cores := 0, bits := 0, turn_number := 3, board := [] }

/-- Snapshot with spawn currency 9 at turn 3: above the spec's claimed
turn-3 threshold of 5, below the source's constant gate of 10. -/
def gs9t3 : GS := { cores := 0, bits := 9, turn_number := 3, board := [] }

/-- Snapshot with spawn currency 12 but the first candidate launch point
blocked by an own structure, so the engine's can-spawn check fails there. -/
def gs_blocked : GS :=
  { cores := 0, bits := 12, turn_number := 3,
    board := [((16, 2), UnitType.FILTER, false)] }

/-- Witness state for the reinforcement-pass theorem: exactly the 2-unit
gate available. -/
def gs_rw : GS := { cores := 2, bits := 0, turn_number := 0, board := [] }

/-- Path service for witnesses: every route is empty (unreachable). -/
def pte0 : Coord → List Coord := fun _ => []

/-- Attacker-count query for witnesses: no enemy attackers anywhere. -/
def att0 : Coord → Nat := fun _ => 0

/-- Path service for the risk-band counterexample: the route from a candidate
is just the candidate tile itself. -/
def pte1 : Coord → List Coord := fun l => [l]

/-- Attacker-count query for the risk-band counterexample: one enemy attacker
covers the candidate at `(16, 2)` and nothing else. -/
def att1 : Coord → Nat := fun l => if l = (16, 2) then 1 else 0

/-- Decidable equality for `Except`, so that concrete runs of the launch
selector can be checked by `decide`. -/
instance exceptDecEq {e a : Type} [DecidableEq e] [DecidableEq a] :
    DecidableEq (Except e a) := fun x y =>
  match x, y with
  | Except.error u, Except.error v =>
    if h : u = v then isTrue (by rw [h]) else
      isFalse fun hc => h (Except.error.inj hc)
  | Except.ok u, Except.ok v =>
    if h : u = v then isTrue (by rw [h]) else
      isFalse fun hc => h (Except.ok.inj hc)
  | Except.error _, Except.ok _ => isFalse fun hc => Except.noConfusion hc
  | Except.ok _, Except.error _ => isFalse fun hc => Except.noConfusion hc

/- ------------------------------------------------------------------ -/
/- Theorems.                                                           -/
/- ------------------------------------------------------------------ -/

theorem damage_foldl_eq (att : Coord → Nat) (d : Nat) :
    ∀ (l : List Coord) (n : Nat),
      l.foldl (fun damage p => damage + att p * d) n =
        n + (l.map fun p => att p * d).sum
  | [], n => by simp
  | p :: rest, n => by
    simp only [List.foldl_cons, List.map_cons, List.sum_cons,
      damage_foldl_eq att d rest]
    omega

theorem ldam_eq_map (pte : Coord → List Coord) (att : Coord → Nat) (d : Nat) :
    ∀ opts : List Coord,
      location_to_damages pte att d opts =
        opts.map fun loc => ((pte loc).map fun p => att p * d).sum
  | [] => rfl
  | loc :: rest => by
    simp only [location_to_damages, List.map_cons, damage_foldl_eq,
      ldam_eq_map pte att d rest, Nat.zero_add]

theorem ldam_length (pte : Coord → List Coord) (att : Coord → Nat) (d : Nat)
    (opts : List Coord) :
    (location_to_damages pte att d opts).length = opts.length := by
  rw [ldam_eq_map]
  exact List.length_map opts _

/-- C6.  The Damage-Risk Estimator returns exactly one risk score per
candidate, in input order: its output is the pointwise map sending each
candidate to the plain (undiscounted, uncapped) sum over every tile of its
route of the attacker count times the fixed per-hit damage constant; a
candidate with an empty (unreachable) route therefore scores 0. -/
theorem c6_estimator_parallel_sum (pte : Coord → List Coord) (att : Coord → Nat)
    (d : Nat) (opts : List Coord) :
    location_to_damages pte att d opts =
      (opts.map fun loc => ((pte loc).map fun p => att p * d).sum) ∧
    ∀ loc : Coord, pte loc = [] → location_to_damages pte att d [loc] = [0] := by
  refine ⟨ldam_eq_map pte att d opts, fun loc hloc => ?_⟩
  simp [location_to_damages, hloc]

/-- Witness for C6: with an empty route the estimator scores 0. -/
theorem c6_estimator_parallel_sum_witness :
    pte0 ((0 : Int), (0 : Int)) = [] ∧
      location_to_damages pte0 att0 5 [((0 : Int), (0 : Int))] = [0] :=
  ⟨rfl, (c6_estimator_parallel_sum pte0 att0 5 [((0 : Int), (0 : Int))]).2
      ((0 : Int), (0 : Int)) rfl⟩

/-- C9.  The Breach Tracker appends exactly one record per opponent-owned
breach event (ownership flag 2), none for self-owned events (flag 1),
append-only and in delivery order. -/
theorem c9_breach_tracker (scored : List Coord) (breaches : List (Coord × Nat))
    (h : ∀ b ∈ breaches, b.2 = 1 ∨ b.2 = 2) :
    on_action_frame scored breaches =
      scored ++ (breaches.filter fun b => b.2 == 2).map Prod.fst := by
  induction breaches generalizing scored with
  | nil => simp [on_action_frame]
  | cons b rest ih =>
    have hstep : on_action_frame scored (b :: rest) =
        on_action_frame (if b.2 == 1 then scored else scored ++ [b.1]) rest := rfl
    have hrest : ∀ x ∈ rest, x.2 = 1 ∨ x.2 = 2 := fun x hx =>
      h x (List.mem_cons_of_mem b hx)
    rcases h b (List.mem_cons_self b rest) with h1 | h2
    · rw [hstep, if_pos (by simp [h1]), ih _ hrest]
      simp [List.filter_cons, h1]
    · rw [hstep, if_neg (by simp [h2]), ih _ hrest]
      simp [List.filter_cons, h2, List.append_assoc]

/-- Witness for C9 (spec section 8 scenario): an opponent-owned breach at
(5, 13) appends exactly one record, a self-owned breach at the same
coordinate appends none. -/
theorem c9_breach_tracker_witness :
    (∀ b ∈ [(((5 : Int), (13 : Int)), 2), (((5 : Int), (13 : Int)), 1)],
        (b : Coord × Nat).2 = 1 ∨ b.2 = 2) ∧
      on_action_frame [] [(((5 : Int), (13 : Int)), 2), (((5 : Int), (13 : Int)), 1)] =
        [] ++ (([(((5 : Int), (13 : Int)), 2), (((5 : Int), (13 : Int)), 1)].filter
            fun b => b.2 == 2).map Prod.fst) ∧
      on_action_frame [] [(((5 : Int), (13 : Int)), 2), (((5 : Int), (13 : Int)), 1)] =
        [((5 : Int), (13 : Int))] :=
  ⟨by decide,
   c9_breach_tracker [] [(((5 : Int), (13 : Int)), 2), (((5 : Int), (13 : Int)), 1)]
     (by decide),
   by decide⟩

theorem list_min_mem : ∀ (d : Nat) (rest : List Nat), list_min (d :: rest) ∈ d :: rest
  | _, [] => by simp [list_min]
  | d, e :: rest => by
    have ih := list_min_mem e rest
    simp only [list_min, Nat.min_def]
    split
    · exact List.mem_cons_self _ _
    · exact List.mem_cons_of_mem _ ih

theorem list_min_le : ∀ (d : Nat) (rest : List Nat) (x : Nat),
    x ∈ d :: rest → list_min (d :: rest) ≤ x
  | d, [], x, hx => by
    have : x = d := by simpa using hx
    simp [list_min, this]
  | d, e :: rest, x, hx => by
    simp only [list_min, Nat.min_def]
    rcases List.mem_cons.mp hx with rfl | hx'
    · split <;> omega
    · have := list_min_le e rest x hx'
      split <;> omega

theorem list_index_first : ∀ (l : List Nat) (v : Nat), v ∈ l →
    l.get? (list_index v l) = some v ∧
      ∀ j, j < list_index v l → l.get? j ≠ some v
  | [], v, hv => absurd hv (List.not_mem_nil v)
  | d :: rest, v, hv => by
    by_cases hdv : d = v
    · refine ⟨?_, ?_⟩
      · simp [list_index, hdv]
      · intro j hj
        simp [list_index, hdv] at hj
    · have hv' : v ∈ rest := by
        rcases List.mem_cons.mp hv with h | h
        · exact absurd h.symm hdv
        · exact h
      obtain ⟨hg, hfirst⟩ := list_index_first rest v hv'
      refine ⟨?_, ?_⟩
      · simpa [list_index, hdv] using hg
      · intro j hj
        match j with
        | 0 =>
          simp only [List.get?_cons_zero]
          intro hc
          exact hdv (Option.some.inj hc)
        | j' + 1 =>
          simp only [list_index, hdv, if_false] at hj
          have hj' : j' < list_index v rest := by omega
          simpa using hfirst j' hj'

/-- C10.  On a non-empty candidate list, `least_damage_spawn_location`
returns the candidate at the first index whose damage score attains the
minimum over the list: the result is an element of the input, its score is a
lower bound for every score, and every strictly earlier candidate has a
strictly larger score (deterministic earliest-tie selection). -/
theorem c10_least_damage (pte : Coord → List Coord) (att : Coord → Nat)
    (d : Nat) (opts : List Coord) (h : opts ≠ []) :
    ∃ cmin i,
      least_damage_spawn_location pte att d opts = some cmin ∧
      cmin ∈ opts ∧
      opts.get? i = some cmin ∧
      (location_to_damages pte att d opts).get? i =
        some (list_min (location_to_damages pte att d opts)) ∧
      (∀ dj ∈ location_to_damages pte att d opts,
        list_min (location_to_damages pte att d opts) ≤ dj) ∧
      (∀ j dj, j < i → (location_to_damages pte att d opts).get? j = some dj →
        list_min (location_to_damages pte att d opts) < dj) := by
  match opts, h with
  | o :: os, _ =>
    have hdcons : location_to_damages pte att d (o :: os) =
        ((pte o).foldl (fun damage p => damage + att p * d) 0) ::
          location_to_damages pte att d os := rfl
    have hmem : list_min (location_to_damages pte att d (o :: os)) ∈
        location_to_damages pte att d (o :: os) := by
      rw [hdcons]
      exact list_min_mem _ _
    obtain ⟨hg, hfirst⟩ :=
      list_index_first (location_to_damages pte att d (o :: os))
        (list_min (location_to_damages pte att d (o :: os))) hmem
    obtain ⟨hlt, -⟩ := List.get?_eq_some.mp hg
    have hio : list_index (list_min (location_to_damages pte att d (o :: os)))
        (location_to_damages pte att d (o :: os)) < (o :: os).length := by
      have := ldam_length pte att d (o :: os)
      omega
    refine ⟨(o :: os).get ⟨_, hio⟩, _, ?_, List.get_mem _ _ _,
      (List.get?_eq_get hio).symm ▸ rfl, hg, ?_, ?_⟩
    · show (o :: os).get? _ = _
      exact List.get?_eq_get hio
    · intro dj hdj
      rw [hdcons] at hdj ⊢
      exact list_min_le _ _ dj hdj
    · intro j dj hj hgj
      have hne := hfirst j hj
      have hdj : dj ∈ location_to_damages pte att d (o :: os) := List.get?_mem hgj
      have hle : list_min (location_to_damages pte att d (o :: os)) ≤ dj := by
        rw [hdcons] at hdj ⊢
        exact list_min_le _ _ dj hdj
      rcases lt_or_eq_of_le hle with hlt' | heq
      · exact hlt'
      · exact absurd (heq ▸ hgj) hne

/-- Witness for C10: two candidates with tied (zero) damage; the earliest is
returned. -/
theorem c10_least_damage_witness :
    ([((0 : Int), (0 : Int)), ((1 : Int), (1 : Int))] : List Coord) ≠ [] ∧
    (∃ cmin i,
      least_damage_spawn_location pte0 att0 1
          [((0 : Int), (0 : Int)), ((1 : Int), (1 : Int))] = some cmin ∧
      cmin ∈ [((0 : Int), (0 : Int)), ((1 : Int), (1 : Int))] ∧
      ([((0 : Int), (0 : Int)), ((1 : Int), (1 : Int))] : List Coord).get? i = some cmin ∧
      (location_to_damages pte0 att0 1
          [((0 : Int), (0 : Int)), ((1 : Int), (1 : Int))]).get? i =
        some (list_min (location_to_damages pte0 att0 1
          [((0 : Int), (0 : Int)), ((1 : Int), (1 : Int))])) ∧
      (∀ dj ∈ location_to_damages pte0 att0 1
          [((0 : Int), (0 : Int)), ((1 : Int), (1 : Int))],
        list_min (location_to_damages pte0 att0 1
          [((0 : Int), (0 : Int)), ((1 : Int), (1 : Int))]) ≤ dj) ∧
      (∀ j dj, j < i →
        (location_to_damages pte0 att0 1
          [((0 : Int), (0 : Int)), ((1 : Int), (1 : Int))]).get? j = some dj →
        list_min (location_to_damages pte0 att0 1
          [((0 : Int), (0 : Int)), ((1 : Int), (1 : Int))]) < dj)) ∧
    least_damage_spawn_location pte0 att0 1
        [((0 : Int), (0 : Int)), ((1 : Int), (1 : Int))] = some ((0 : Int), (0 : Int)) :=
  ⟨by decide,
   c10_least_damage pte0 att0 1 [((0 : Int), (0 : Int)), ((1 : Int), (1 : Int))]
     (by decide),
   by decide⟩

/-- C3 counterexample.  At turn 3 the spec's step function prescribes a
launch threshold of 5, so a spawn currency of 9 (≥ 5) would launch; the
program does not launch: its gate is the constant 10, not a function of the
turn number. -/
theorem c3_counterexample :
    minimum_spawn_threshold_spec gs9t3.turn_number = 5 ∧
    5 ≤ rat_trunc_toNat gs9t3.bits ∧
    spam_pings_if_good gs9t3 0 = Except.ok (gs9t3, none, false) := by
  refine ⟨by decide, by decide, by decide⟩

/-- C3 (amended).  The Offensive Launch Selector's gate is the constant 10
for every state and turn (a trivially non-decreasing function of the turn
number); nothing is recomputed after a strategy executes (the selector keeps
no threshold state).  Below the gate nothing is launched; at or above it a
launch of `int(bits)` pings is attempted (committed or aborted by the
engine check).  With spawn currency 12 at turn 3 the launch executes with
quantity 12. -/
theorem c3_amended_constant_gate :
    (∀ gs pick, rat_trunc_toNat gs.bits < spam_gate →
        spam_pings_if_good gs pick = Except.ok (gs, none, false)) ∧
    (∀ gs pick, spam_gate ≤ rat_trunc_toNat gs.bits →
        spam_pings_if_good gs pick = Except.error () ∨
        ∃ gs', spam_pings_if_good gs pick =
          Except.ok (gs', some (spam_deploy_location pick, rat_trunc_toNat gs.bits),
            true)) ∧
    spam_gate = 10 ∧
    spam_pings_if_good gs12t3 0 =
      Except.ok (gs12t3_after, some (((16 : Int), (2 : Int)), 12), true) := by
  refine ⟨?_, ?_, rfl, by decide⟩
  · intro gs pick hlt
    unfold spam_pings_if_good
    rw [if_neg (by omega)]
  · intro gs pick hge
    unfold spam_pings_if_good
    rw [if_pos hge]
    by_cases hcs :
      can_spawn gs (spam_deploy_location pick) (rat_trunc_toNat gs.bits) = true
    · right
      exact ⟨_, by rw [if_pos hcs]⟩
    · left
      rw [if_neg hcs]

/-- Witness for C3 (amended): currency 9 does not launch, currency 12 does. -/
theorem c3_amended_constant_gate_witness :
    (rat_trunc_toNat gs9t3.bits < spam_gate ∧
      spam_pings_if_good gs9t3 7 = Except.ok (gs9t3, none, false)) ∧
    (spam_gate ≤ rat_trunc_toNat gs12t3.bits ∧
      (spam_pings_if_good gs12t3 0 = Except.error () ∨
        ∃ gs', spam_pings_if_good gs12t3 0 =
          Except.ok (gs', some (spam_deploy_location 0, rat_trunc_toNat gs12t3.bits),
            true))) :=
  ⟨⟨by decide, c3_amended_constant_gate.1 gs9t3 7 (by decide)⟩,
   ⟨by decide, c3_amended_constant_gate.2.1 gs12t3 0 (by decide)⟩⟩

/-- C4 counterexample.  With one enemy attacker covering candidate (16, 2)
and none elsewhere, (16, 2) carries risk 10 while the minimum risk over the
candidate set is 0, so its risk exceeds 1.5 times the minimum; the selector
nevertheless selects it (for draw 0): the eligibility set is not restricted
by the 1.5-band. -/
theorem c4_counterexample :
    location_to_damages pte1 att1 10 our_placements = [10, 0, 0, 0] ∧
    list_min (location_to_damages pte1 att1 10 our_placements) = 0 ∧
    ¬((10 : ℚ) ≤ 3 / 2 * 0) ∧
    spam_deploy_location 0 = ((16 : Int), (2 : Int)) ∧
    spam_pings_if_good gs12t3 0 =
      Except.ok (gs12t3_after, some (((16 : Int), (2 : Int)), 12), true) := by
  refine ⟨by decide, by decide, by norm_num, by decide, by decide⟩

/-- C4 (amended).  When the gate passes and the engine check accepts, the
selector launches at `valid_placements[pick mod 4]` — the eligibility set is
the entire candidate list, independent of any risk score (the damage
estimates are computed by a function this selector never calls, and the 1.5
factor appears only in the unused `spawn_attacker_threshold`); every
candidate is reachable by some draw, so a candidate whose risk exceeds 1.5
times the minimum can be selected. -/
theorem c4_amended_whole_candidate_set :
    (∀ gs pick, spam_gate ≤ rat_trunc_toNat gs.bits →
        can_spawn gs (spam_deploy_location pick) (rat_trunc_toNat gs.bits) = true →
        spam_pings_if_good gs pick =
          Except.ok
            ((attempt_spawn_mobile gs (spam_deploy_location pick)
                (rat_trunc_toNat gs.bits)).1,
             some (spam_deploy_location pick, rat_trunc_toNat gs.bits), true)) ∧
    (∀ pick, spam_deploy_location pick ∈ our_placements) ∧
    (∀ i, i < our_placements.length →
        spam_deploy_location i = our_placements.getD i (0, 0)) := by
  refine ⟨?_, ?_, ?_⟩
  · intro gs pick hge hcs
    unfold spam_pings_if_good
    rw [if_pos hge, if_pos hcs]
  · intro pick
    have hmod : pick % spam_good_indices.length = 0 ∨
        pick % spam_good_indices.length = 1 ∨
        pick % spam_good_indices.length = 2 ∨
        pick % spam_good_indices.length = 3 := by
      have h4 : spam_good_indices.length = 4 := rfl
      rw [h4]
      omega
    unfold spam_deploy_location
    rcases hmod with h | h | h | h <;> rw [h] <;> decide
  · intro i hi
    have hi' : i = 0 ∨ i = 1 ∨ i = 2 ∨ i = 3 := by
      have h4 : our_placements.length = 4 := rfl
      rw [h4] at hi
      omega
    rcases hi' with rfl | rfl | rfl | rfl <;> decide

/-- Witness for C4 (amended): the turn-3, currency-12 snapshot launches at
candidate index 0. -/
theorem c4_amended_whole_candidate_set_witness :
    spam_gate ≤ rat_trunc_toNat gs12t3.bits ∧
    can_spawn gs12t3 (spam_deploy_location 0) (rat_trunc_toNat gs12t3.bits) = true ∧
    spam_pings_if_good gs12t3 0 =
      Except.ok
        ((attempt_spawn_mobile gs12t3 (spam_deploy_location 0)
            (rat_trunc_toNat gs12t3.bits)).1,
         some (spam_deploy_location 0, rat_trunc_toNat gs12t3.bits), true) :=
  ⟨by decide, by decide,
   c4_amended_whole_candidate_set.1 gs12t3 0 (by decide) (by decide)⟩

/-- C5 counterexample.  With spawn currency 12 but the chosen candidate
blocked by an own structure, the engine's can-spawn confirmation fails and
the decision pass raises (the `assert` propagates an AssertionError) instead
of aborting the launch quietly. -/
theorem c5_counterexample :
    spam_gate ≤ rat_trunc_toNat gs_blocked.bits ∧
    can_spawn gs_blocked (spam_deploy_location 0) (rat_trunc_toNat gs_blocked.bits)
      = false ∧
    spam_pings_if_good gs_blocked 0 = Except.error () := by
  refine ⟨by decide, by decide, by decide⟩

/-- C5 (amended).  The selector does confirm via the engine's can-spawn
check before committing: a committed launch implies the check passed on the
exact placement and quantity.  But when the gate passes and the check fails,
the `assert` raises and the exception propagates out of the decision pass —
the launch is not aborted gracefully. -/
theorem c5_amended_assert_propagates :
    (∀ gs pick gs' loc q,
        spam_pings_if_good gs pick = Except.ok (gs', some (loc, q), true) →
        can_spawn gs loc q = true) ∧
    (∀ gs pick, spam_gate ≤ rat_trunc_toNat gs.bits →
        can_spawn gs (spam_deploy_location pick) (rat_trunc_toNat gs.bits) = false →
        spam_pings_if_good gs pick = Except.error ()) := by
  constructor
  · intro gs pick gs' loc q h
    unfold spam_pings_if_good at h
    by_cases hg : rat_trunc_toNat gs.bits ≥ spam_gate
    · rw [if_pos hg] at h
      by_cases hcs :
        can_spawn gs (spam_deploy_location pick) (rat_trunc_toNat gs.bits) = true
      · rw [if_pos hcs] at h
        have h2 := Except.ok.inj h
        have h3 : some (spam_deploy_location pick, rat_trunc_toNat gs.bits) =
            some (loc, q) := congrArg (fun z => z.2.1) h2
        have h4 := Option.some.inj h3
        have h5 : spam_deploy_location pick = loc := congrArg Prod.fst h4
        have h6 : rat_trunc_toNat gs.bits = q := congrArg Prod.snd h4
        rw [← h5, ← h6]
        exact hcs
      · rw [if_neg hcs] at h
        exact Except.noConfusion h
    · rw [if_neg hg] at h
      have h2 := Except.ok.inj h
      have h3 : (none : Option (Coord × Nat)) = some (loc, q) :=
        congrArg (fun z => z.2.1) h2
      exact Option.noConfusion h3
  · intro gs pick hge hcs
    unfold spam_pings_if_good
    rw [if_pos hge, if_neg (by rw [hcs]; exact Bool.false_ne_true)]

/-- Witness for C5 (amended): the turn-3 launch state satisfies the check
consequence, and the blocked state raises. -/
theorem c5_amended_assert_propagates_witness :
    (spam_pings_if_good gs12t3 0 =
        Except.ok (gs12t3_after, some (((16 : Int), (2 : Int)), 12), true) ∧
      can_spawn gs12t3 ((16 : Int), (2 : Int)) 12 = true) ∧
    (spam_gate ≤ rat_trunc_toNat gs_blocked.bits ∧
      can_spawn gs_blocked (spam_deploy_location 0) (rat_trunc_toNat gs_blocked.bits)
        = false ∧
      spam_pings_if_good gs_blocked 0 = Except.error ()) :=
  ⟨⟨by decide,
    c5_amended_assert_propagates.1 gs12t3 0 gs12t3_after ((16 : Int), (2 : Int)) 12
      (by decide)⟩,
   ⟨by decide, by decide,
    c5_amended_assert_propagates.2 gs_blocked 0 (by decide) (by decide)⟩⟩

theorem spawn_list_orders (c : Costs) (t : UnitType) :
    ∀ (locs : List Coord) (gs : GS),
      ∀ e ∈ (attempt_spawn_list c t locs gs).2,
        ∃ loc ∈ locs, e.order = Order.spawn t loc
  | [], _, e, he => by simp [attempt_spawn_list] at he
  | loc :: rest, gs, e, he => by
    simp only [attempt_spawn_list, List.mem_cons] at he
    rcases he with rfl | he
    · exact ⟨loc, List.mem_cons_self _ _, rfl⟩
    · obtain ⟨l, hl, ho⟩ := spawn_list_orders c t rest _ e he
      exact ⟨l, List.mem_cons_of_mem _ hl, ho⟩

theorem upgrade_list_orders (c : Costs) :
    ∀ (locs : List Coord) (gs : GS),
      ∀ e ∈ (attempt_upgrade_list c locs gs).2,
        ∃ loc ∈ locs, e.order = Order.upgrade loc
  | [], _, e, he => by simp [attempt_upgrade_list] at he
  | loc :: rest, gs, e, he => by
    simp only [attempt_upgrade_list, List.mem_cons] at he
    rcases he with rfl | he
    · exact ⟨loc, List.mem_cons_self _ _, rfl⟩
    · obtain ⟨l, hl, ho⟩ := upgrade_list_orders c rest _ e he
      exact ⟨l, List.mem_cons_of_mem _ hl, ho⟩

theorem fpg_nil (comb : ℚ) : FilterPairsGated comb [] := by
  intro i f b hget
  simp at hget

theorem fpg_append {comb : ℚ} {l1 l2 : List Entry}
    (h1 : FilterPairsGated comb l1) (h2 : FilterPairsGated comb l2) :
    FilterPairsGated comb (l1 ++ l2) := by
  intro i f b hget
  by_cases hi : i < l1.length
  · rw [List.get?_append hi] at hget
    obtain ⟨hb2, hcb, b', hup⟩ := h1 i f b hget
    obtain ⟨hlt', -⟩ := List.get?_eq_some.mp hup
    exact ⟨hb2, hcb, b', by rw [List.get?_append hlt']; exact hup⟩
  · have hge : l1.length ≤ i := le_of_not_lt hi
    rw [List.get?_append_right hge] at hget
    obtain ⟨hb2, hcb, b', hup⟩ := h2 (i - l1.length) f b hget
    refine ⟨hb2, hcb, b', ?_⟩
    rw [List.get?_append_right (by omega)]
    have : i + 1 - l1.length = i - l1.length + 1 := by omega
    rw [this]
    exact hup

theorem fpg_of_no_filter {comb : ℚ} {l : List Entry}
    (h : ∀ e ∈ l, ∀ f, e.order ≠ Order.spawn UnitType.FILTER f) :
    FilterPairsGated comb l := by
  intro i f b hget
  have hm : (⟨Order.spawn UnitType.FILTER f, b⟩ : Entry) ∈ l := List.get?_mem hget
  exact absurd rfl (h _ hm f)

theorem fpg_spawn_list {comb : ℚ} (c : Costs) {t : UnitType}
    (ht : t ≠ UnitType.FILTER) (locs : List Coord) (gs : GS) :
    FilterPairsGated comb (attempt_spawn_list c t locs gs).2 := by
  refine fpg_of_no_filter fun e he f => ?_
  obtain ⟨l, -, ho⟩ := spawn_list_orders c t locs gs e he
  rw [ho]
  intro hc
  have : t = UnitType.FILTER := (Order.spawn.inj hc).1
  exact ht this

theorem fpg_upgrade_list {comb : ℚ} (c : Costs) (locs : List Coord) (gs : GS) :
    FilterPairsGated comb (attempt_upgrade_list c locs gs).2 := by
  refine fpg_of_no_filter fun e he f => ?_
  obtain ⟨l, -, ho⟩ := upgrade_list_orders c locs gs e he
  rw [ho]
  intro hc
  exact Order.noConfusion hc

theorem fpg_step {comb : ℚ} (c : Costs) (f : Coord) (gs : GS)
    (hb : 2 ≤ gs.cores) (hcomb : comb ≤ 2) :
    FilterPairsGated comb (filter_pair_step c f gs).2 := by
  intro i f' b hget
  match i with
  | 0 =>
    simp only [filter_pair_step, List.get?_cons_zero, Option.some.injEq,
      Entry.mk.injEq, Order.spawn.injEq] at hget
    obtain ⟨⟨-, rfl⟩, rfl⟩ := hget
    exact ⟨hb, le_trans hcomb hb, _, rfl⟩
  | 1 =>
    simp only [filter_pair_step, List.get?_cons_succ, List.get?_cons_zero,
      Option.some.injEq, Entry.mk.injEq] at hget
    exact absurd hget.1 (fun hc => Order.noConfusion hc)
  | n + 2 =>
    simp [filter_pair_step] at hget

theorem fpg_filter_loop {comb : ℚ} (c : Costs) (hcomb : comb ≤ 2) :
    ∀ (goals : List Coord) (gs : GS),
      FilterPairsGated comb (filter_pair_loop c goals gs).2.1
  | [], gs => by
    simp only [filter_pair_loop]
    exact fpg_nil comb
  | f :: rest, gs => by
    by_cases hlt : gs.cores < 2
    · simp only [filter_pair_loop, if_pos hlt]
      exact fpg_nil comb
    · simp only [filter_pair_loop, if_neg hlt]
      exact fpg_append (fpg_step c f gs (le_of_not_lt hlt) hcomb)
        (fpg_filter_loop c hcomb rest _)

theorem fpg_reinforce_loop {comb : ℚ} (c : Costs) (hcomb : comb ≤ 2) :
    ∀ (goals : List Coord) (gs : GS),
      FilterPairsGated comb (reinforce_loop c goals gs).2.1
  | [], gs => by
    simp only [reinforce_loop]
    exact fpg_nil comb
  | f :: rest, gs => by
    by_cases hcor : in_center_corridor (reinforce_coord f).1 = true
    · simp only [reinforce_loop, if_pos hcor]
      exact fpg_reinforce_loop c hcomb rest gs
    · by_cases hlt : gs.cores < 2
      · simp only [reinforce_loop, if_neg hcor, if_pos hlt]
        exact fpg_nil comb
      · simp only [reinforce_loop, if_neg hcor, if_neg hlt]
        exact fpg_append (fpg_step c _ gs (le_of_not_lt hlt) hcomb)
          (fpg_reinforce_loop c hcomb rest _)

theorem fpg_brd_mid {comb : ℚ} (c : Costs) (gs : GS) :
    FilterPairsGated comb (brd_mid c gs).2 := by
  unfold brd_mid
  exact fpg_append (fpg_append (fpg_append
    (fpg_spawn_list c (by decide) _ _)
    (fpg_spawn_list c (by decide) _ _))
    (fpg_upgrade_list c _ _))
    (fpg_upgrade_list c _ _)

theorem fpg_brd_end {comb : ℚ} (c : Costs) (gs : GS) :
    FilterPairsGated comb (brd_end c gs).2 := by
  unfold brd_end
  exact fpg_append (fpg_spawn_list c (by decide) _ _) (fpg_upgrade_list c _ _)

theorem fpg_build {comb : ℚ} (c : Costs) (hcomb : comb ≤ 2) (gs : GS) :
    FilterPairsGated comb (build_reactive_defense c gs).2 := by
  have hinit : FilterPairsGated comb (brd_init c gs).2 :=
    fpg_spawn_list c (by decide) _ _
  have hl1 : FilterPairsGated comb (brd_loop1 c gs).2.1 := by
    unfold brd_loop1
    exact fpg_filter_loop c hcomb _ _
  have hmid : FilterPairsGated comb (brd_mid_r c gs).2 := by
    unfold brd_mid_r
    exact fpg_brd_mid c _
  have hl2 : FilterPairsGated comb (brd_loop2 c gs).2.1 := by
    unfold brd_loop2
    exact fpg_reinforce_loop c hcomb _ _
  unfold build_reactive_defense
  split
  · exact fpg_append hinit hl1
  · split
    · exact fpg_append (fpg_append hinit hl1) hmid
    · split
      · exact fpg_append (fpg_append (fpg_append hinit hl1) hmid) hl2
      · exact fpg_append (fpg_append (fpg_append (fpg_append hinit hl1) hmid) hl2)
          (fpg_brd_end c _)

/-- C1.  For every cost table whose combined filter build+upgrade cost is
within the 2-unit gate, every turn and every state: whenever the Reactive
Defense Allocator issues a filter spawn order, the structure-currency
balance `b` read immediately before that order satisfied the 2-unit
affordability gate, the combined build+upgrade cost does not exceed `b`,
and the very next order issued is the upgrade of the same coordinate (the
pair is atomic). -/
theorem c1_pair_affordability (c : Costs) (hc : c.filter + c.filterUp ≤ 2)
    (gs : GS) :
    ∀ i f b,
      (build_reactive_defense c gs).2.get? i =
        some ⟨Order.spawn UnitType.FILTER f, b⟩ →
      2 ≤ b ∧ c.filter + c.filterUp ≤ b ∧
        ∃ b', (build_reactive_defense c gs).2.get? (i + 1) =
          some ⟨Order.upgrade f, b'⟩ :=
  fpg_build c hc gs

/-- Witness for C1: with unit costs 1+1 and 5 cores, the first filter pair is
issued at balance 5 and is immediately upgraded. -/
theorem c1_pair_affordability_witness :
    costs_w.filter + costs_w.filterUp ≤ 2 ∧
    (build_reactive_defense costs_w gs_w1).2.get? 4 =
      some ⟨Order.spawn UnitType.FILTER ((5 : Int), (11 : Int)), 5⟩ ∧
    (2 ≤ (5 : ℚ) ∧ costs_w.filter + costs_w.filterUp ≤ 5 ∧
      ∃ b', (build_reactive_defense costs_w gs_w1).2.get? (4 + 1) =
        some ⟨Order.upgrade ((5 : Int), (11 : Int)), b'⟩) :=
  ⟨by decide, by decide,
   c1_pair_affordability costs_w (by decide) gs_w1 4 ((5 : Int), (11 : Int)) 5
     (by decide)⟩

theorem filter_pair_loop_stop (c : Costs) (f : Coord) (rest : List Coord)
    (gs : GS) (h : gs.cores < 2) :
    filter_pair_loop c (f :: rest) gs = (gs, [], false) := by
  simp only [filter_pair_loop, if_pos h]

/-- C2.  If at a secondary-tier (filter-pair) entry the structure-currency
balance is below the 2-unit combined cost, the loop issues no order for that
entry nor for anything after it and signals the stop of the whole pass; in
particular, when the balance is already below 2 at the first secondary-tier
entry, the whole turn's allocation is exactly the unconditionally reissued
initial-tier destructor build orders (the embedding is total: no exception
arises). -/
theorem c2_affordability_stop :
    (∀ (c : Costs) (f : Coord) (rest : List Coord) (gs : GS), gs.cores < 2 →
        filter_pair_loop c (f :: rest) gs = (gs, [], false)) ∧
    (∀ (c : Costs) (gs : GS), (brd_init c gs).1.cores < 2 →
        build_reactive_defense c gs = ((brd_init c gs).1, (brd_init c gs).2) ∧
        ∀ e ∈ (brd_init c gs).2, ∃ loc ∈ destructor_goals,
          e.order = Order.spawn UnitType.DESTRUCTOR loc) := by
  refine ⟨filter_pair_loop_stop, fun c gs h => ⟨?_, ?_⟩⟩
  · have hfg : filter_goals = (((5 : Int), (11 : Int)) : Coord) :: filter_goals.tail :=
      rfl
    have hb1 : brd_loop1 c gs = ((brd_init c gs).1, [], false) := by
      unfold brd_loop1
      rw [hfg]
      exact filter_pair_loop_stop c _ _ _ h
    unfold build_reactive_defense
    rw [hb1]
    simp
  · intro e he
    unfold brd_init at he
    exact spawn_list_orders c UnitType.DESTRUCTOR destructor_goals gs e he

/-- Witness for C2: structure currency 1 at the first secondary-tier entry
(spec section 8 scenario): only the four initial-tier destructor orders are
issued. -/
theorem c2_affordability_stop_witness :
    ((brd_init costs_w gs_low).1.cores < 2 ∧
      (build_reactive_defense costs_w gs_low =
          ((brd_init costs_w gs_low).1, (brd_init costs_w gs_low).2) ∧
        ∀ e ∈ (brd_init costs_w gs_low).2, ∃ loc ∈ destructor_goals,
          e.order = Order.spawn UnitType.DESTRUCTOR loc)) ∧
    (gs_low.cores < 2 ∧
      filter_pair_loop costs_w ((((5 : Int), (11 : Int)) : Coord) :: []) gs_low =
        (gs_low, [], false)) ∧
    (brd_init costs_w gs_low).2.length = 4 :=
  ⟨⟨by decide, c2_affordability_stop.2 costs_w gs_low (by decide)⟩,
   ⟨by decide,
    c2_affordability_stop.1 costs_w ((5 : Int), (11 : Int)) [] gs_low (by decide)⟩,
   by decide⟩

theorem foldl_and : ∀ (l : List Bool) (b : Bool),
    l.foldl (fun a x => a && x) b = (b && l.all id)
  | [], b => by simp
  | x :: xs, b => by
    simp only [List.foldl_cons, List.all_cons, foldl_and xs, id]
    simp [Bool.and_assoc]

theorem dsb_iff_all (gs : GS) (lst : List Coord) :
    destructor_set_built gs lst = true ↔
      ∀ loc ∈ lst, contains_stationary_unit gs loc = true := by
  unfold destructor_set_built
  rw [foldl_and]
  simp [List.all_map, List.all_eq_true, Function.comp]

/-- C7.  The tier-completion check is the universal quantifier over the
"must exist" set, and the later filter-reinforcement pass (together with
everything after it) runs only when that check holds: whenever some
secondary-destructor coordinate lacks a stationary structure at check time,
the turn's allocation ends exactly at the mid-game block — no reinforcement
or end-game order is issued, and nothing is retried partially. -/
theorem c7_tier_gating :
    (∀ (gs : GS) (lst : List Coord), destructor_set_built gs lst = true ↔
        ∀ loc ∈ lst, contains_stationary_unit gs loc = true) ∧
    (∀ (c : Costs) (gs : GS), (brd_loop1 c gs).2.2 = true →
        destructor_set_built (brd_mid_r c gs).1 secondary_destructor_goals = false →
        build_reactive_defense c gs =
          ((brd_mid_r c gs).1,
           (brd_init c gs).2 ++ (brd_loop1 c gs).2.1 ++ (brd_mid_r c gs).2)) := by
  refine ⟨dsb_iff_all, fun c gs h1 h2 => ?_⟩
  unfold build_reactive_defense
  rw [h1, h2]
  simp

/-- Witness for C7: with 55 cores the filter loop completes but the secondary
destructors are unaffordable, so the allocator stops right after the
mid-game block. -/
theorem c7_tier_gating_witness :
    ((brd_loop1 costs_w gs_w2).2.2 = true ∧
      destructor_set_built (brd_mid_r costs_w gs_w2).1 secondary_destructor_goals
        = false ∧
      build_reactive_defense costs_w gs_w2 =
        ((brd_mid_r costs_w gs_w2).1,
         (brd_init costs_w gs_w2).2 ++ (brd_loop1 costs_w gs_w2).2.1 ++
           (brd_mid_r costs_w gs_w2).2)) ∧
    (destructor_set_built gs_w2 secondary_destructor_goals = true ↔
      ∀ loc ∈ secondary_destructor_goals,
        contains_stationary_unit gs_w2 loc = true) :=
  ⟨⟨by decide, by decide, c7_tier_gating.2 costs_w gs_w2 (by decide) (by decide)⟩,
   c7_tier_gating.1 gs_w2 secondary_destructor_goals⟩

theorem corridor_false_iff (x : Int) :
    in_center_corridor x = false ↔ ¬(12 ≤ x ∧ x ≤ 15) := by
  unfold in_center_corridor
  cases h12 : decide (12 ≤ x) <;> cases h15 : decide (x ≤ 15) <;>
    simp_all

theorem reinforce_entries (c : Costs) :
    ∀ (goals : List Coord) (gs : GS),
      ∀ e ∈ (reinforce_loop c goals gs).2.1,
        ∃ f ∈ goals, in_center_corridor (reinforce_coord f).1 = false ∧
          (e.order = Order.spawn UnitType.FILTER (reinforce_coord f) ∨
           e.order = Order.upgrade (reinforce_coord f))
  | [], gs, e, he => by simp [reinforce_loop] at he
  | f :: rest, gs, e, he => by
    by_cases hcor : in_center_corridor (reinforce_coord f).1 = true
    · simp only [reinforce_loop, if_pos hcor] at he
      obtain ⟨g, hg, hprop⟩ := reinforce_entries c rest gs e he
      exact ⟨g, List.mem_cons_of_mem _ hg, hprop⟩
    · have hcor' : in_center_corridor (reinforce_coord f).1 = false :=
        Bool.eq_false_iff.mpr hcor
      by_cases hlt : gs.cores < 2
      · simp only [reinforce_loop, if_neg hcor, if_pos hlt] at he
        simp at he
      · simp only [reinforce_loop, if_neg hcor, if_neg hlt, List.mem_append] at he
        rcases he with he | he
        · simp only [filter_pair_step, List.mem_cons, List.not_mem_nil,
            or_false] at he
          rcases he with rfl | rfl
          · exact ⟨f, List.mem_cons_self _ _, hcor', Or.inl rfl⟩
          · exact ⟨f, List.mem_cons_self _ _, hcor', Or.inr rfl⟩
        · obtain ⟨g, hg, hprop⟩ := reinforce_entries c rest _ e he
          exact ⟨g, List.mem_cons_of_mem _ hg, hprop⟩

/-- C8 counterexample.  For the base coordinate (5, 11) of the goal list the
pass computes the reinforcement coordinate (6, 11) — one column inward with
no mirroring — whereas mirroring across the vertical centerline and
offsetting inward gives (21, 11). -/
theorem c8_counterexample :
    (((5 : Int), (11 : Int)) : Coord) ∈ filter_goals ∧
    reinforce_coord ((5 : Int), (11 : Int)) = ((6 : Int), (11 : Int)) ∧
    mirror_inward_spec_coord ((5 : Int), (11 : Int)) = ((21 : Int), (11 : Int)) ∧
    reinforce_coord ((5 : Int), (11 : Int)) ≠
      mirror_inward_spec_coord ((5 : Int), (11 : Int)) := by
  refine ⟨by decide, by decide, by decide, by decide⟩

/-- C8 (amended).  Every order of the reinforcement pass targets the
coordinate obtained from some base entry by the one-column-toward-center
shift (no mirroring), and that coordinate never lies in the protected
central corridor (columns 12-15); because the base list is mirror-symmetric,
the multiset of coordinates produced by the shift coincides with the one the
spec's mirror-then-inward rule would produce. -/
theorem c8_amended_inward_shift :
    (∀ (c : Costs) (gs : GS) (goals : List Coord),
      ∀ e ∈ (reinforce_loop c goals gs).2.1, ∃ f ∈ goals,
        ¬(12 ≤ (reinforce_coord f).1 ∧ (reinforce_coord f).1 ≤ 15) ∧
        (e.order = Order.spawn UnitType.FILTER (reinforce_coord f) ∨
         e.order = Order.upgrade (reinforce_coord f))) ∧
    (filter_goals.map reinforce_coord).Perm
      (filter_goals.map mirror_inward_spec_coord) := by
  constructor
  · intro c gs goals e he
    obtain ⟨f, hf, hcor, hord⟩ := reinforce_entries c goals gs e he
    exact ⟨f, hf, (corridor_false_iff _).mp hcor, hord⟩
  · decide

/-- Witness for C8 (amended): with 2 cores and the single base (5, 11), the
pass spawns at the shifted coordinate (6, 11), outside the corridor. -/
theorem c8_amended_inward_shift_witness :
    ((⟨Order.spawn UnitType.FILTER ((6 : Int), (11 : Int)), 2⟩ : Entry) ∈
      (reinforce_loop costs_w [((5 : Int), (11 : Int))] gs_rw).2.1) ∧
    (∃ f ∈ [(((5 : Int), (11 : Int)) : Coord)],
      ¬(12 ≤ (reinforce_coord f).1 ∧ (reinforce_coord f).1 ≤ 15) ∧
      ((⟨Order.spawn UnitType.FILTER ((6 : Int), (11 : Int)), 2⟩ : Entry).order =
          Order.spawn UnitType.FILTER (reinforce_coord f) ∨
        (⟨Order.spawn UnitType.FILTER ((6 : Int), (11 : Int)), 2⟩ : Entry).order =
          Order.upgrade (reinforce_coord f))) :=
  ⟨by decide,
   c8_amended_inward_shift.1 costs_w gs_rw [((5 : Int), (11 : Int))]
     ⟨Order.spawn UnitType.FILTER ((6 : Int), (11 : Int)), 2⟩ (by decide)⟩
